import Mathlib

/-!
Verification of the Smart Meeting Room services (bookings, reviews, users)
and of the booking-created event pipeline described in the design spec.

The CRUD services are embedded from the Python sources:
  * `services/bookings_service/main.py`  (namespace `Bookings`)
  * `services/reviews_service/main.py`   (namespace `Reviews`)
  * `services/users_service/routes.py`   (namespace `Users`)
Python `datetime` values are embedded as integers (`Int`): the booking code
only ever compares them with `<=`.  FastAPI `HTTPException` is embedded as an
error value carrying the status code and detail string; an endpoint that can
raise becomes a function into `Except HTTPError _`.  The in-memory module
state (`bookings`/`next_booking_id`, `reviews`/`_next_review_id`) is passed
explicitly as a state record.

The event publisher and consumer are not present in the source tree; they are
modelled from the spec in namespace `Messaging`, with each such definition
marked `Modelled from the spec:` in its doc comment.
-/

/-- Embeds FastAPI's `HTTPException(status_code, detail)`. -/
inductive HTTPError where
  | httpException (code : Nat) (detail : String)
deriving DecidableEq, Repr

instance [DecidableEq ε] [DecidableEq α] : DecidableEq (Except ε α) := fun a b =>
  match a, b with
  | Except.ok x, Except.ok y =>
    if h : x = y then isTrue (by rw [h]) else isFalse (by intro hc; cases hc; exact h rfl)
  | Except.error x, Except.error y =>
    if h : x = y then isTrue (by rw [h]) else isFalse (by intro hc; cases hc; exact h rfl)
  | Except.ok _, Except.error _ => isFalse (by intro hc; cases hc)
  | Except.error _, Except.ok _ => isFalse (by intro hc; cases hc)

namespace Bookings

/-- Embeds the pydantic schema `BookingCreate` of
`services/bookings_service/main.py` (datetimes as `Int`). -/
structure BookingCreate where
  room_id : Int
  username : String
  start_time : Int
  end_time : Int
  purpose : Option String
deriving DecidableEq, Repr

/-- Embeds the pydantic schema `BookingUpdate`: all fields optional. -/
structure BookingUpdate where
  start_time : Option Int
  end_time : Option Int
  purpose : Option String
deriving DecidableEq, Repr

/-- Embeds the pydantic schema `BookingResponse`: the created-booking shape
plus `id` and `status`. -/
structure BookingResponse where
  room_id : Int
  username : String
  start_time : Int
  end_time : Int
  purpose : Option String
  id : Int
  status : String
deriving DecidableEq, Repr

/-- The module-level mutable state of the bookings service:
`bookings: List[BookingResponse] = []` and `next_booking_id: int = 1`. -/
structure BookingsState where
  bookings : List BookingResponse
  next_booking_id : Int
deriving DecidableEq, Repr

/-- The state at module import time: empty list, next id 1. -/
def initialState : BookingsState := { bookings := [], next_booking_id := 1 }

/-- Embeds `get_booking_or_404`: linear scan for the first booking with the
given id, `HTTPException(404)` otherwise. -/
def get_booking_or_404 (st : BookingsState) (booking_id : Int) :
    Except HTTPError BookingResponse :=
  match st.bookings.find? (fun b => b.id == booking_id) with
  | some b => Except.ok b
  | none => Except.error (HTTPError.httpException 404 "Booking not found")

/-- Embeds `create_booking` (lines 194-240): reject `end_time <= start_time`
with a 400, otherwise build the booking with `id = next_booking_id` and
`status = "confirmed"`, increment the counter and append.  The audit-log call
has no effect on the returned value or the store and is not represented. -/
def create_booking (payload : BookingCreate) (st : BookingsState) :
    Except HTTPError BookingResponse × BookingsState :=
  if payload.end_time ≤ payload.start_time then
    (Except.error (HTTPError.httpException 400 "end_time must be after start_time"), st)
  else
    let booking : BookingResponse :=
      { room_id := payload.room_id
        username := payload.username
        start_time := payload.start_time
        end_time := payload.end_time
        purpose := payload.purpose
        id := st.next_booking_id
        status := "confirmed" }
    (Except.ok booking,
      { bookings := st.bookings ++ [booking]
        next_booking_id := st.next_booking_id + 1 })

/-- The source `create_booking` body (lines 194-240) contains no publish call
and touches no messaging infrastructure at all, so the list of messages it
enqueues is nil for every payload and every state. -/
def create_booking_enqueued (_payload : BookingCreate) (_st : BookingsState) :
    List String := []

/-- Replace the first element satisfying `p` by `new` (embeds Python's
in-place mutation of the object found by a linear scan). -/
def replaceFirstBy (p : α → Bool) (new : α) : List α → List α
  | [] => []
  | x :: xs => if p x then new :: xs else x :: replaceFirstBy p new xs

/-- Remove the first element satisfying `p` (embeds `list.remove(obj)` where
`obj` is the first element satisfying `p`: earlier elements fail `p`, hence
differ from `obj`, so the element removed is exactly that first match). -/
def removeFirstBy (p : α → Bool) : List α → List α
  | [] => []
  | x :: xs => if p x then xs else x :: removeFirstBy p xs

/-- The first mutation `update_booking` performs: overwrite `start_time`
when the payload supplies one (`if payload.start_time is not None`). -/
def start_patched (payload : BookingUpdate) (booking : BookingResponse) : BookingResponse :=
  match payload.start_time with
  | some s => { booking with start_time := s }
  | none => booking

/-- The interval check `update_booking` performs, reached only when the
payload supplies an `end_time`: compare it against the payload `start_time`
when one was supplied, against the stored `start_time` otherwise. -/
def invalid_interval (payload : BookingUpdate) (booking : BookingResponse) : Bool :=
  match payload.end_time with
  | some et =>
    match payload.start_time with
    | some s => decide (et ≤ s)
    | none => decide (et ≤ booking.start_time)
  | none => false

/-- The booking after all three field overwrites of `update_booking`
(start, then end, then purpose). -/
def updated_booking (payload : BookingUpdate) (booking : BookingResponse) : BookingResponse :=
  let b1 := start_patched payload booking
  let b2 : BookingResponse :=
    match payload.end_time with
    | some et => { b1 with end_time := et }
    | none => b1
  match payload.purpose with
  | some p => { b2 with purpose := p }
  | none => b2

/-- Embeds `update_booking` (lines 260-306): 404 when the booking is absent;
otherwise `start_time` is overwritten first (`start_patched`), then the
interval check runs when an `end_time` was supplied (`invalid_interval`),
raising a 400 — the already-performed `start_time` mutation persists in the
store in that case, since the Python code mutated the stored object before
raising — and otherwise `end_time` and `purpose` are overwritten
(`updated_booking`). -/
def update_booking (booking_id : Int) (payload : BookingUpdate) (st : BookingsState) :
    Except HTTPError BookingResponse × BookingsState :=
  match st.bookings.find? (fun b => b.id == booking_id) with
  | none => (Except.error (HTTPError.httpException 404 "Booking not found"), st)
  | some booking =>
    if invalid_interval payload booking then
      (Except.error (HTTPError.httpException 400 "end_time must be after start_time"),
        { st with bookings :=
            replaceFirstBy (fun b => b.id == booking_id) (start_patched payload booking) st.bookings })
    else
      (Except.ok (updated_booking payload booking),
        { st with bookings :=
            replaceFirstBy (fun b => b.id == booking_id) (updated_booking payload booking) st.bookings })

/-- Embeds `delete_booking` (lines 309-334): 404 when absent, otherwise
remove the found booking and answer with its id. -/
def delete_booking (booking_id : Int) (st : BookingsState) :
    Except HTTPError Int × BookingsState :=
  match st.bookings.find? (fun b => b.id == booking_id) with
  | none => (Except.error (HTTPError.httpException 404 "Booking not found"), st)
  | some _ =>
    (Except.ok booking_id,
      { st with bookings := removeFirstBy (fun b => b.id == booking_id) st.bookings })

/-- An API call against the bookings store, for reasoning about the states
reachable through the service's mutating endpoints. -/
inductive Op where
  | create (p : BookingCreate)
  | update (booking_id : Int) (p : BookingUpdate)
  | delete (booking_id : Int)
deriving DecidableEq, Repr

/-- The store state after one API call (the response is dropped). -/
def applyOp (st : BookingsState) (op : Op) : BookingsState :=
  match op with
  | Op.create p => (create_booking p st).2
  | Op.update i p => (update_booking i p st).2
  | Op.delete i => (delete_booking i st).2

/-- The store state after a sequence of API calls from `st`. -/
def applyOps (st : BookingsState) (ops : List Op) : BookingsState :=
  ops.foldl applyOp st

/-- The ids of the stored bookings, in storage order. -/
def ids (st : BookingsState) : List Int :=
  st.bookings.map (fun b => b.id)

/-- The id-freshness invariant of the store: stored ids are pairwise
distinct and all strictly below `next_booking_id`. -/
def Inv (st : BookingsState) : Prop :=
  (ids st).Nodup ∧ ∀ i ∈ ids st, i < st.next_booking_id

end Bookings

namespace Reviews

/-- Embeds the pydantic schema `ReviewCreate` of
`services/reviews_service/main.py` (field-level validators are pydantic's
concern and not modelled; handlers receive already-validated payloads). -/
structure ReviewCreate where
  username : String
  rating : Int
  comment : Option String
  booking_id : Int
deriving DecidableEq, Repr

/-- Embeds the pydantic schema `ReviewUpdate`: optional rating and comment. -/
structure ReviewUpdate where
  rating : Option Int
  comment : Option String
deriving DecidableEq, Repr

/-- Embeds the pydantic schema `ReviewResponse` (`created_at` datetime as
`Int`). -/
structure ReviewResponse where
  review_id : Int
  room_id : Int
  username : String
  rating : Int
  comment : Option String
  booking_id : Int
  created_at : Int
deriving DecidableEq, Repr

/-- The module-level mutable state of the reviews service:
`reviews: List[ReviewResponse] = []` and `_next_review_id: int = 1`. -/
structure ReviewsState where
  reviews : List ReviewResponse
  next_review_id : Int
deriving DecidableEq, Repr

/-- The state at module import time. -/
def initialState : ReviewsState := { reviews := [], next_review_id := 1 }

/-- Embeds `get_current_username` (lines 129-143): the bearer token itself is
the authenticated identity; an empty (falsy) token yields a 401. -/
def get_current_username (token : String) : Except HTTPError String :=
  if token = "" then
    Except.error (HTTPError.httpException 401 "Not authenticated")
  else
    Except.ok token

/-- Embeds `get_review_or_404`: first review with the given id, else 404. -/
def get_review_or_404 (st : ReviewsState) (review_id : Int) :
    Except HTTPError ReviewResponse :=
  match st.reviews.find? (fun r => r.review_id == review_id) with
  | some r => Except.ok r
  | none => Except.error (HTTPError.httpException 404 "Review not found")

/-- Embeds `create_review` (lines 306-352): 403 when the payload username
differs from the authenticated username, otherwise build the review with
`review_id = _next_review_id` and `created_at = datetime.utcnow()` (passed
here as the `now` argument), append it and bump the counter. -/
def create_review (room_id : Int) (payload : ReviewCreate)
    (current_username : String) (now : Int) (st : ReviewsState) :
    Except HTTPError ReviewResponse × ReviewsState :=
  if payload.username ≠ current_username then
    (Except.error (HTTPError.httpException 403 "You can only create reviews as yourself."), st)
  else
    let review : ReviewResponse :=
      { review_id := st.next_review_id
        room_id := room_id
        username := payload.username
        rating := payload.rating
        comment := payload.comment
        booking_id := payload.booking_id
        created_at := now }
    (Except.ok review,
      { reviews := st.reviews ++ [review]
        next_review_id := st.next_review_id + 1 })

/-- Embeds `update_review` (lines 372-411): 404 when absent, 403 when the
stored author differs from the authenticated username, otherwise overwrite
rating and/or comment in place. -/
def update_review (review_id : Int) (payload : ReviewUpdate)
    (current_username : String) (st : ReviewsState) :
    Except HTTPError ReviewResponse × ReviewsState :=
  match st.reviews.find? (fun r => r.review_id == review_id) with
  | none => (Except.error (HTTPError.httpException 404 "Review not found"), st)
  | some review =>
    if review.username ≠ current_username then
      (Except.error (HTTPError.httpException 403 "You can only update your own reviews."), st)
    else
      let r1 : ReviewResponse :=
        match payload.rating with
        | some x => { review with rating := x }
        | none => review
      let r2 : ReviewResponse :=
        match payload.comment with
        | some c => { r1 with comment := c }
        | none => r1
      (Except.ok r2,
        { st with reviews :=
            Bookings.replaceFirstBy (fun r => r.review_id == review_id) r2 st.reviews })

/-- Embeds `delete_review` (lines 414-447): 404 when absent, 403 when the
stored author differs from the authenticated username, otherwise remove the
found review. -/
def delete_review (review_id : Int) (current_username : String) (st : ReviewsState) :
    Except HTTPError Int × ReviewsState :=
  match st.reviews.find? (fun r => r.review_id == review_id) with
  | none => (Except.error (HTTPError.httpException 404 "Review not found"), st)
  | some review =>
    if review.username ≠ current_username then
      (Except.error (HTTPError.httpException 403 "You can only delete your own reviews."), st)
    else
      (Except.ok review_id,
        { st with reviews :=
            Bookings.removeFirstBy (fun r => r.review_id == review_id) st.reviews })

end Reviews

namespace Users

/-- Embeds the SQLAlchemy `User` row of `services/users_service/models.py`. -/
structure User where
  id : Int
  username : String
  password : String
  role : String
deriving DecidableEq, Repr

/-- Embeds the `Token` response schema of `services/users_service/schemas.py`. -/
structure Token where
  access_token : String
  token_type : String
  role : String
deriving DecidableEq, Repr

/-- Embeds `authenticate_user` of `services/users_service/routes.py`:
first row matching the username, then compare the stored hash with
`hash_password(password)`.  The SHA-256 salt-and-hash is abstracted as the
function argument `hash_password`; nothing here depends on its definition. -/
def authenticate_user (hash_password : String → String) (db : List User)
    (username password : String) : Option User :=
  match db.find? (fun u => u.username == username) with
  | none => none
  | some user =>
    if user.password ≠ hash_password password then none else some user

/-- Embeds `login` (routes.py lines 132-152): 401 on failed authentication,
otherwise a `Token` whose `access_token` is literally the user's username. -/
def login (hash_password : String → String) (db : List User)
    (username password : String) : Except HTTPError Token :=
  match authenticate_user hash_password db username password with
  | none => Except.error (HTTPError.httpException 401 "Incorrect username or password")
  | some db_user =>
    Except.ok { access_token := db_user.username, token_type := "bearer", role := db_user.role }

end Users

namespace Messaging

/-- A calendar timestamp, standing for Python's second-precision `datetime`
values carried by booking events (the spec's payloads use second precision,
e.g. `"2025-01-01T10:00:00"`). -/
structure DateTime where
  year : Nat
  month : Nat
  day : Nat
  hour : Nat
  minute : Nat
  second : Nat
deriving DecidableEq, Repr

/-- Range constraints `datetime` enforces on its fields (year at most 9999,
month 1-12, day 1-31, hour 0-23, minute and second 0-59). -/
@[reducible] def DateTime.wf (t : DateTime) : Prop :=
  t.year ≤ 9999 ∧ 1 ≤ t.month ∧ t.month ≤ 12 ∧ 1 ≤ t.day ∧ t.day ≤ 31 ∧
    t.hour ≤ 23 ∧ t.minute ≤ 59 ∧ t.second ≤ 59

/-- The ASCII digit character for `n % 10`. -/
def digitChar (n : Nat) : Char := Char.ofNat (48 + n % 10)

/-- Two-digit zero-padded decimal rendering. -/
def pad2 (n : Nat) : List Char := [digitChar (n / 10), digitChar n]

/-- Four-digit zero-padded decimal rendering. -/
def pad4 (n : Nat) : List Char :=
  [digitChar (n / 1000), digitChar (n / 100), digitChar (n / 10), digitChar n]

/-- The character sequence of `datetime.isoformat()` at second precision:
`YYYY-MM-DDTHH:MM:SS`. -/
def isoFormatChars (t : DateTime) : List Char :=
  pad4 t.year ++ '-' :: (pad2 t.month ++ '-' :: (pad2 t.day ++
    'T' :: (pad2 t.hour ++ ':' :: (pad2 t.minute ++ ':' :: pad2 t.second))))

/-- `datetime.isoformat()` at second precision: `YYYY-MM-DDTHH:MM:SS`. -/
def isoFormat (t : DateTime) : String :=
  String.mk (isoFormatChars t)

/-- The value of an ASCII digit character, `none` on anything else. -/
def digitVal (c : Char) : Option Nat :=
  if 48 ≤ c.toNat ∧ c.toNat ≤ 57 then some (c.toNat - 48) else none

/-- Parse two digit characters as a two-digit number. -/
def parse2 (a b : Char) : Option Nat :=
  match digitVal a, digitVal b with
  | some x, some y => some (10 * x + y)
  | _, _ => none

/-- Parse four digit characters as a four-digit number. -/
def parse4 (a b c d : Char) : Option Nat :=
  match digitVal a, digitVal b, digitVal c, digitVal d with
  | some x, some y, some z, some w => some (1000 * x + 100 * y + 10 * z + w)
  | _, _, _, _ => none

/-- The field-range validation `datetime.fromisoformat` performs on the six
parsed components. -/
def checkRanges (year month day hour minute second : Nat) : Option DateTime :=
  if (1 ≤ month ∧ month ≤ 12) ∧ (1 ≤ day ∧ day ≤ 31) ∧
      hour ≤ 23 ∧ minute ≤ 59 ∧ second ≤ 59 then
    some { year := year, month := month, day := day,
           hour := hour, minute := minute, second := second }
  else none

/-- Parse the six numeric fields of an ISO timestamp from their digit
characters and validate their ranges. -/
def parseFields (y1 y2 y3 y4 m1 m2 d1 d2 h1 h2 n1 n2 s1 s2 : Char) : Option DateTime :=
  match parse4 y1 y2 y3 y4, parse2 m1 m2, parse2 d1 d2,
      parse2 h1 h2, parse2 n1 n2, parse2 s1 s2 with
  | some year, some month, some day, some hour, some minute, some second =>
    checkRanges year month day hour minute second
  | _, _, _, _, _, _ => none

/-- `datetime.fromisoformat` restricted to the second-precision shape the
publisher emits — exactly `YYYY-MM-DDTHH:MM:SS` — on a character list. -/
def isoParseChars (l : List Char) : Option DateTime :=
  match l with
  | [y1, y2, y3, y4, c1, m1, m2, c2, d1, d2, c3, h1, h2, c4, n1, n2, c5, s1, s2] =>
    if c1 = '-' ∧ c2 = '-' ∧ c3 = 'T' ∧ c4 = ':' ∧ c5 = ':' then
      parseFields y1 y2 y3 y4 m1 m2 d1 d2 h1 h2 n1 n2 s1 s2
    else none
  | _ => none

/-- `datetime.fromisoformat` restricted to the second-precision shape the
publisher emits, with the field ranges checked as `datetime` does. -/
def isoParse (s : String) : Option DateTime :=
  isoParseChars s.data

/-- Modelled from the spec: the booking snapshot carried by a
`BookingCreatedEvent` — `{id, room_id, username, start_time, end_time,
purpose, status}` (§3).  The publisher/consumer modules are absent from
`src/`, so this record and the (de)serializers below follow the spec's
payload description (§6). -/
structure EventBooking where
  id : Int
  room_id : Int
  username : String
  start_time : DateTime
  end_time : DateTime
  purpose : Option String
  status : String
deriving DecidableEq, Repr

/-- A JSON-like scalar, as much of JSON as the payload shape needs. -/
inductive JsonValue where
  | jnum (n : Int)
  | jstr (s : String)
  | jnull
deriving DecidableEq, Repr

/-- Modelled from the spec: serialization of a booking to the event payload
(§6) — field names preserved, timestamps as ISO-8601 strings, `purpose`
null when absent.  The publisher module is absent from `src/`. -/
def serialize_event (b : EventBooking) : List (String × JsonValue) :=
  [("id", JsonValue.jnum b.id),
   ("room_id", JsonValue.jnum b.room_id),
   ("username", JsonValue.jstr b.username),
   ("start_time", JsonValue.jstr (isoFormat b.start_time)),
   ("end_time", JsonValue.jstr (isoFormat b.end_time)),
   ("purpose", match b.purpose with
               | some p => JsonValue.jstr p
               | none => JsonValue.jnull),
   ("status", JsonValue.jstr b.status)]

/-- First value bound to key `k` in a JSON-like object. -/
def lookupField (payload : List (String × JsonValue)) (k : String) : Option JsonValue :=
  (payload.find? (fun kv => kv.fst == k)).map (fun kv => kv.snd)

/-- Modelled from the spec: the consumer-side deserialization of the event
payload (§4.2 step 4, §6) — reads the seven named fields back, parsing the
ISO-8601 timestamps; fails on a missing field, a wrongly-typed field or an
unparsable timestamp.  The consumer module is absent from `src/`. -/
def deserialize_event (payload : List (String × JsonValue)) : Option EventBooking :=
  match lookupField payload "id", lookupField payload "room_id",
      lookupField payload "username", lookupField payload "start_time",
      lookupField payload "end_time", lookupField payload "purpose",
      lookupField payload "status" with
  | some (JsonValue.jnum i), some (JsonValue.jnum r), some (JsonValue.jstr u),
      some (JsonValue.jstr st), some (JsonValue.jstr et), some pv,
      some (JsonValue.jstr stat) =>
    match isoParse st, isoParse et with
    | some t1, some t2 =>
      match pv with
      | JsonValue.jstr p =>
        some { id := i, room_id := r, username := u, start_time := t1,
               end_time := t2, purpose := some p, status := stat }
      | JsonValue.jnull =>
        some { id := i, room_id := r, username := u, start_time := t1,
               end_time := t2, purpose := none, status := stat }
      | JsonValue.jnum _ => none
    | _, _ => none
  | _, _, _, _, _, _, _ => none

/-- Modelled from the spec: the failure classes the publish path can hit —
connection, serialization, or broker error (§4.1, §7).  The publisher module
is absent from `src/`. -/
inductive PublishError where
  | connectionError
  | serializationError
  | brokerError
deriving DecidableEq, Repr

/-- Modelled from the spec: the state of the messaging infrastructure as the
publish path observes it — whether connecting, serializing, and the broker
round trip succeed (§4.1). -/
structure BrokerEnv where
  connect_ok : Bool
  serialize_ok : Bool
  broker_ok : Bool
deriving DecidableEq, Repr

/-- Modelled from the spec: the raw publish attempt — connect, declare the
durable queue, serialize, publish persistent (§4.1); each stage can raise
its failure class. -/
def publish_attempt (env : BrokerEnv) (_msg : α) : Except PublishError Unit :=
  if env.connect_ok = false then Except.error PublishError.connectionError
  else if env.serialize_ok = false then Except.error PublishError.serializationError
  else if env.broker_ok = false then Except.error PublishError.brokerError
  else Except.ok ()

/-- Modelled from the spec: the booking-creation request path with the
synchronous best-effort publish (§4.1, §5): create the booking exactly as
`src/services/bookings_service/main.py` does, then attempt the publish; any
publish error is caught, logged, and treated as a no-op.  Returns the API
response, the stored state, and the list of messages enqueued. -/
def create_booking_and_publish (env : BrokerEnv) (p : Bookings.BookingCreate)
    (st : Bookings.BookingsState) :
    Except HTTPError Bookings.BookingResponse × Bookings.BookingsState ×
      List Bookings.BookingResponse :=
  match Bookings.create_booking p st with
  | (Except.error e, st2) => (Except.error e, st2, [])
  | (Except.ok r, st2) =>
    match publish_attempt env r with
    | Except.ok _ => (Except.ok r, st2, [r])
    | Except.error _ => (Except.ok r, st2, [])

/-- Modelled from the spec: what the consumer's connection feeds it — either
a delivered message or a raised exception (connection drop, consume error). -/
inductive BrokerStep (α : Type) where
  | msg (m : α)
  | failure
deriving DecidableEq, Repr

/-- Modelled from the spec: the consumer background task (§4.2) — a blocking
consume loop processing delivered messages one at a time; any exception is
caught at the top level and the loop terminates, with no reconnect (§4.2
failure semantics, §7).  Returns the messages processed over the task's
lifetime. -/
def run_consumer : List (BrokerStep α) → List α
  | [] => []
  | BrokerStep.msg m :: rest => m :: run_consumer rest
  | BrokerStep.failure :: _ => []

/-- An observable event of the consumer's interaction with the queue:
a message delivery or an explicit acknowledgment. -/
inductive QEvent (α : Type) where
  | deliver (m : α)
  | ack (m : α)
deriving DecidableEq, Repr

/-- Modelled from the spec: the event trace of a prefetch-1 consumer drained
against a queue of pending messages (§4.2 steps 3-4): each message is
delivered, processed, and explicitly acknowledged before the broker delivers
the next. -/
def consume_trace : List α → List (QEvent α)
  | [] => []
  | m :: rest => QEvent.deliver m :: QEvent.ack m :: consume_trace rest

/-- The messages acknowledged in a trace, in order. -/
def acksOf (tr : List (QEvent α)) : List α :=
  tr.filterMap (fun e => match e with
    | QEvent.ack m => some m
    | QEvent.deliver _ => none)

/-- The messages delivered in a trace, in order. -/
def deliversOf (tr : List (QEvent α)) : List α :=
  tr.filterMap (fun e => match e with
    | QEvent.deliver m => some m
    | QEvent.ack _ => none)

/-- Unacknowledged deliveries outstanding after a (prefix of a) trace. -/
def unackedCount (tr : List (QEvent α)) : Nat :=
  (deliversOf tr).length - (acksOf tr).length

end Messaging

/-! ## Helper lemmas -/

namespace Bookings

theorem replaceFirstBy_map (f : α → β) (p : α → Bool) (new : α) (l : List α)
    (h : ∀ x ∈ l, p x = true → f new = f x) :
    (replaceFirstBy p new l).map f = l.map f := by
  induction l with
  | nil => rfl
  | cons x xs ih =>
    by_cases hx : p x
    · simp [replaceFirstBy, hx, h x (List.mem_cons_self x xs) hx]
    · simp only [replaceFirstBy, hx, if_neg, Bool.false_eq_true, not_false_iff, List.map_cons]
      rw [ih (fun y hy hpy => h y (List.mem_cons_of_mem x hy) hpy)]

theorem removeFirstBy_sublist (p : α → Bool) (l : List α) :
    (removeFirstBy p l).Sublist l := by
  induction l with
  | nil => simp [removeFirstBy]
  | cons x xs ih =>
    by_cases hx : p x
    · simp [removeFirstBy, hx]
    · simpa [removeFirstBy, hx] using ih.cons₂ x

theorem mem_replaceFirstBy_of_find? (p : α → Bool) (new a : α) (l : List α)
    (h : l.find? p = some a) : new ∈ replaceFirstBy p new l := by
  induction l with
  | nil => simp [List.find?] at h
  | cons x xs ih =>
    by_cases hx : p x
    · simp [replaceFirstBy, hx]
    · rw [List.find?_cons_of_neg _ (by simp [hx])] at h
      simp only [replaceFirstBy, hx, if_neg, Bool.false_eq_true, not_false_iff, List.mem_cons]
      exact Or.inr (ih h)

end Bookings

/-! ## Claims about the bookings service -/

/-- C1: for every booking-creation payload whose `end_time` is strictly after
its `start_time`, `create_booking` succeeds regardless of broker
availability: it returns a booking with status `"confirmed"` and the next id,
appends it to the store, and enqueues zero messages — the source handler
contains no messaging code, so the response is the same for every broker
environment. -/
theorem create_booking_succeeds_and_enqueues_nothing
    (_broker : Messaging.BrokerEnv) (p : Bookings.BookingCreate)
    (st : Bookings.BookingsState) (h : p.start_time < p.end_time) :
    ∃ r : Bookings.BookingResponse,
      Bookings.create_booking p st =
        (Except.ok r,
          { bookings := st.bookings ++ [r]
            next_booking_id := st.next_booking_id + 1 }) ∧
      r.status = "confirmed" ∧ r.id = st.next_booking_id ∧
      Bookings.create_booking_enqueued p st = [] := by
  have hne : ¬ (p.end_time ≤ p.start_time) := by omega
  exact ⟨{ room_id := p.room_id, username := p.username, start_time := p.start_time,
           end_time := p.end_time, purpose := p.purpose, id := st.next_booking_id,
           status := "confirmed" },
    by simp [Bookings.create_booking, hne], rfl, rfl, rfl⟩

/-- Witness for `create_booking_succeeds_and_enqueues_nothing` at a concrete
payload and the initial state. -/
theorem create_booking_succeeds_and_enqueues_nothing_witness :
    ((⟨1, "alice", 0, 60, none⟩ : Bookings.BookingCreate).start_time <
        (⟨1, "alice", 0, 60, none⟩ : Bookings.BookingCreate).end_time) ∧
    ∃ r : Bookings.BookingResponse,
      Bookings.create_booking ⟨1, "alice", 0, 60, none⟩ Bookings.initialState =
        (Except.ok r,
          { bookings := Bookings.initialState.bookings ++ [r]
            next_booking_id := Bookings.initialState.next_booking_id + 1 }) ∧
      r.status = "confirmed" ∧ r.id = Bookings.initialState.next_booking_id ∧
      Bookings.create_booking_enqueued ⟨1, "alice", 0, 60, none⟩ Bookings.initialState = [] :=
  ⟨by decide,
   create_booking_succeeds_and_enqueues_nothing ⟨true, true, true⟩
     ⟨1, "alice", 0, 60, none⟩ Bookings.initialState (by decide)⟩

/-- C4: there is no conflict detection between overlapping bookings — two
valid payloads for the same room with overlapping half-open intervals are
both accepted (`Except.ok` is the 201 path of the handler), each with status
`"confirmed"` and a distinct id, and both end up stored. -/
theorem overlapping_bookings_both_accepted
    (p1 p2 : Bookings.BookingCreate) (st : Bookings.BookingsState)
    (h1 : p1.start_time < p1.end_time) (h2 : p2.start_time < p2.end_time)
    (_hroom : p1.room_id = p2.room_id)
    (_hoverlap : max p1.start_time p2.start_time < min p1.end_time p2.end_time) :
    ∃ r1 r2 st1 st2,
      Bookings.create_booking p1 st = (Except.ok r1, st1) ∧
      Bookings.create_booking p2 st1 = (Except.ok r2, st2) ∧
      r1.status = "confirmed" ∧ r2.status = "confirmed" ∧
      r1.id ≠ r2.id ∧ r1 ∈ st2.bookings ∧ r2 ∈ st2.bookings := by
  have hne1 : ¬ (p1.end_time ≤ p1.start_time) := by omega
  have hne2 : ¬ (p2.end_time ≤ p2.start_time) := by omega
  refine ⟨{ room_id := p1.room_id, username := p1.username, start_time := p1.start_time,
            end_time := p1.end_time, purpose := p1.purpose, id := st.next_booking_id,
            status := "confirmed" },
          { room_id := p2.room_id, username := p2.username, start_time := p2.start_time,
            end_time := p2.end_time, purpose := p2.purpose, id := st.next_booking_id + 1,
            status := "confirmed" },
          { bookings := st.bookings ++
              [{ room_id := p1.room_id, username := p1.username, start_time := p1.start_time,
                 end_time := p1.end_time, purpose := p1.purpose, id := st.next_booking_id,
                 status := "confirmed" }]
            next_booking_id := st.next_booking_id + 1 },
          { bookings := (st.bookings ++
              [{ room_id := p1.room_id, username := p1.username, start_time := p1.start_time,
                 end_time := p1.end_time, purpose := p1.purpose, id := st.next_booking_id,
                 status := "confirmed" }]) ++
              [{ room_id := p2.room_id, username := p2.username, start_time := p2.start_time,
                 end_time := p2.end_time, purpose := p2.purpose, id := st.next_booking_id + 1,
                 status := "confirmed" }]
            next_booking_id := st.next_booking_id + 1 + 1 },
          by simp [Bookings.create_booking, hne1],
          by simp [Bookings.create_booking, hne2],
          rfl, rfl, by simp, by simp, by simp⟩

/-- Witness for `overlapping_bookings_both_accepted`: two bookings for room 1
over overlapping intervals, from the initial state. -/
theorem overlapping_bookings_both_accepted_witness :
    ∃ r1 r2 st1 st2,
      Bookings.create_booking ⟨1, "alice", 0, 60, none⟩ Bookings.initialState = (Except.ok r1, st1) ∧
      Bookings.create_booking ⟨1, "bob", 30, 90, none⟩ st1 = (Except.ok r2, st2) ∧
      r1.status = "confirmed" ∧ r2.status = "confirmed" ∧
      r1.id ≠ r2.id ∧ r1 ∈ st2.bookings ∧ r2 ∈ st2.bookings :=
  overlapping_bookings_both_accepted ⟨1, "alice", 0, 60, none⟩ ⟨1, "bob", 30, 90, none⟩
    Bookings.initialState (by decide) (by decide) (by decide) (by decide)

/-! ## The id-freshness invariant (bookings store) -/

namespace Bookings

theorem start_patched_id (p : BookingUpdate) (b : BookingResponse) :
    (start_patched p b).id = b.id := by
  unfold start_patched
  cases p.start_time <;> rfl

theorem updated_booking_id (p : BookingUpdate) (b : BookingResponse) :
    (updated_booking p b).id = b.id := by
  unfold updated_booking
  cases p.purpose <;> cases p.end_time <;> simp [start_patched_id]

theorem create_booking_state (p : BookingCreate) (st : BookingsState) :
    (create_booking p st).2 = st ∨
    (create_booking p st).2 =
      { bookings := st.bookings ++
          [{ room_id := p.room_id, username := p.username, start_time := p.start_time,
             end_time := p.end_time, purpose := p.purpose, id := st.next_booking_id,
             status := "confirmed" }]
        next_booking_id := st.next_booking_id + 1 } := by
  unfold create_booking
  by_cases hc : p.end_time ≤ p.start_time
  · left; simp [hc]
  · right; simp [hc]

theorem update_booking_state (i : Int) (p : BookingUpdate) (st : BookingsState) :
    (update_booking i p st).2 = st ∨
    ∃ b : BookingResponse, b.id = i ∧
      (update_booking i p st).2 =
        { st with bookings := replaceFirstBy (fun x => x.id == i) b st.bookings } := by
  cases hf : st.bookings.find? (fun b => b.id == i) with
  | none => left; simp [update_booking, hf]
  | some booking =>
    have hbid : booking.id = i := by simpa using List.find?_some hf
    by_cases hbad : invalid_interval p booking
    · exact Or.inr ⟨start_patched p booking, by rw [start_patched_id, hbid],
        by simp [update_booking, hf, hbad]⟩
    · exact Or.inr ⟨updated_booking p booking, by rw [updated_booking_id, hbid],
        by simp [update_booking, hf, hbad]⟩

theorem delete_booking_state (i : Int) (st : BookingsState) :
    (delete_booking i st).2 = st ∨
    (delete_booking i st).2 =
      { st with bookings := removeFirstBy (fun x => x.id == i) st.bookings } := by
  cases hf : st.bookings.find? (fun b => b.id == i) with
  | none => left; simp [delete_booking, hf]
  | some booking => right; simp [delete_booking, hf]

theorem inv_initialState : Inv initialState := by
  constructor <;> simp [Inv, ids, initialState]

theorem inv_create (p : BookingCreate) (st : BookingsState) (h : Inv st) :
    Inv (create_booking p st).2 := by
  obtain ⟨hn, hb⟩ := h
  rcases create_booking_state p st with heq | heq
  · rw [heq]; exact ⟨hn, hb⟩
  · rw [heq]
    constructor
    · show (List.map (fun b => b.id) (st.bookings ++ [_])).Nodup
      rw [List.map_append, List.nodup_append]
      refine ⟨hn, List.nodup_singleton _, ?_⟩
      intro i hi hj
      simp only [List.map_cons, List.map_nil, List.mem_singleton] at hj
      have := hb i hi
      omega
    · intro i hi
      show i < st.next_booking_id + 1
      rw [show ids _ = ids st ++ [st.next_booking_id] from by
        simp [ids]] at hi
      rcases List.mem_append.mp hi with hi | hi
      · have := hb i hi; omega
      · simp only [List.mem_singleton] at hi; omega

theorem inv_update (i : Int) (p : BookingUpdate) (st : BookingsState) (h : Inv st) :
    Inv (update_booking i p st).2 := by
  obtain ⟨hn, hb⟩ := h
  rcases update_booking_state i p st with heq | ⟨b, hbid, heq⟩
  · rw [heq]; exact ⟨hn, hb⟩
  · rw [heq]
    have hmap : (replaceFirstBy (fun x => x.id == i) b st.bookings).map (fun x => x.id) =
        st.bookings.map (fun x => x.id) := by
      apply replaceFirstBy_map
      intro x _ hpx
      have : x.id = i := by simpa using hpx
      rw [hbid, this]
    constructor
    · show ((replaceFirstBy (fun x => x.id == i) b st.bookings).map (fun x => x.id)).Nodup
      rw [hmap]; exact hn
    · intro j hj
      apply hb
      show j ∈ st.bookings.map (fun x => x.id)
      rw [← hmap]; exact hj

theorem inv_delete (i : Int) (st : BookingsState) (h : Inv st) :
    Inv (delete_booking i st).2 := by
  obtain ⟨hn, hb⟩ := h
  rcases delete_booking_state i st with heq | heq
  · rw [heq]; exact ⟨hn, hb⟩
  · rw [heq]
    have hsub : ((removeFirstBy (fun x => x.id == i) st.bookings).map (fun x => x.id)).Sublist
        (st.bookings.map (fun x => x.id)) :=
      (removeFirstBy_sublist _ _).map _
    exact ⟨hn.sublist hsub, fun j hj => hb j (hsub.subset hj)⟩

theorem inv_applyOp (st : BookingsState) (op : Op) (h : Inv st) : Inv (applyOp st op) := by
  cases op with
  | create p => exact inv_create p st h
  | update i p => exact inv_update i p st h
  | delete i => exact inv_delete i st h

theorem inv_applyOps (st : BookingsState) (ops : List Op) (h : Inv st) :
    Inv (applyOps st ops) := by
  induction ops generalizing st with
  | nil => exact h
  | cons op rest ih => exact ih _ (inv_applyOp st op h)

end Bookings

/-- C8: in every state reachable from the initial empty store by any
sequence of `create_booking`, `update_booking`, and `delete_booking` calls,
the stored bookings have pairwise-distinct ids and every stored id is
strictly below `next_booking_id`; consequently a successful `create_booking`
in such a state assigns an id different from every stored id, even after
deletions. -/
theorem booking_id_freshness (ops : List Bookings.Op) :
    ((Bookings.applyOps Bookings.initialState ops).bookings.map (fun b => b.id)).Nodup ∧
    (∀ b ∈ (Bookings.applyOps Bookings.initialState ops).bookings,
        b.id < (Bookings.applyOps Bookings.initialState ops).next_booking_id) ∧
    (∀ p r st2,
        Bookings.create_booking p (Bookings.applyOps Bookings.initialState ops) =
          (Except.ok r, st2) →
        ∀ b ∈ (Bookings.applyOps Bookings.initialState ops).bookings, r.id ≠ b.id) := by
  obtain ⟨hn, hb⟩ := Bookings.inv_applyOps Bookings.initialState ops Bookings.inv_initialState
  refine ⟨hn, ?_, ?_⟩
  · intro b hbm
    exact hb b.id (List.mem_map.mpr ⟨b, hbm, rfl⟩)
  · intro p r st2 hcr b hbm
    have hrid : r.id = (Bookings.applyOps Bookings.initialState ops).next_booking_id := by
      by_cases hc : p.end_time ≤ p.start_time
      · simp [Bookings.create_booking, hc] at hcr
      · simp [Bookings.create_booking, hc] at hcr
        rw [← hcr.1]
    have := hb b.id (List.mem_map.mpr ⟨b, hbm, rfl⟩)
    omega

/-- Witness for `booking_id_freshness`: after creating a booking and
deleting it, a fresh creation still picks id 2, distinct from the stored
id 1 left by a second creation. -/
theorem booking_id_freshness_witness :
    Bookings.create_booking ⟨1, "alice", 0, 60, none⟩
        (Bookings.applyOps Bookings.initialState [Bookings.Op.create ⟨1, "alice", 0, 60, none⟩]) =
      (Except.ok ⟨1, "alice", 0, 60, none, 2, "confirmed"⟩,
       ⟨[⟨1, "alice", 0, 60, none, 1, "confirmed"⟩, ⟨1, "alice", 0, 60, none, 2, "confirmed"⟩], 3⟩) ∧
    (⟨1, "alice", 0, 60, none, 1, "confirmed"⟩ : Bookings.BookingResponse) ∈
      (Bookings.applyOps Bookings.initialState [Bookings.Op.create ⟨1, "alice", 0, 60, none⟩]).bookings ∧
    (⟨1, "alice", 0, 60, none, 2, "confirmed"⟩ : Bookings.BookingResponse).id ≠
      (⟨1, "alice", 0, 60, none, 1, "confirmed"⟩ : Bookings.BookingResponse).id :=
  ⟨by decide, by decide,
   (booking_id_freshness [Bookings.Op.create ⟨1, "alice", 0, 60, none⟩]).2.2
     ⟨1, "alice", 0, 60, none⟩ ⟨1, "alice", 0, 60, none, 2, "confirmed"⟩
     ⟨[⟨1, "alice", 0, 60, none, 1, "confirmed"⟩, ⟨1, "alice", 0, 60, none, 2, "confirmed"⟩], 3⟩
     (by decide) ⟨1, "alice", 0, 60, none, 1, "confirmed"⟩ (by decide)⟩

/-! ## Update validation and review ownership -/

namespace Bookings

theorem invalid_interval_iff (payload : BookingUpdate) (b : BookingResponse) :
    invalid_interval payload b = true ↔
      ∃ et, payload.end_time = some et ∧ et ≤ payload.start_time.getD b.start_time := by
  unfold invalid_interval
  rcases payload with ⟨ps, pe, pp⟩
  rcases pe with _ | et <;> rcases ps with _ | s <;> simp

end Bookings

/-- C9: `update_booking` validates the time interval only when the payload
supplies an `end_time`: for a stored booking, an update supplying only a new
`start_time` succeeds even when that start is at or after the stored end, so
the stored booking can end up with `end_time <= start_time`; and the 400
rejection happens exactly for payloads supplying an `end_time` at or before
the effective start (the payload's `start_time` when supplied, the stored
one otherwise). -/
theorem update_booking_checks_interval_only_with_end
    (st : Bookings.BookingsState) (b : Bookings.BookingResponse)
    (hb : st.bookings.find? (fun x => x.id == b.id) = some b) :
    (∀ s : Int, b.end_time ≤ s →
      ∃ st2,
        Bookings.update_booking b.id ⟨some s, none, none⟩ st =
          (Except.ok { b with start_time := s }, st2) ∧
        { b with start_time := s } ∈ st2.bookings ∧
        ({ b with start_time := s } : Bookings.BookingResponse).end_time ≤
          ({ b with start_time := s } : Bookings.BookingResponse).start_time) ∧
    (∀ payload : Bookings.BookingUpdate,
      (Bookings.update_booking b.id payload st).1 =
          Except.error (HTTPError.httpException 400 "end_time must be after start_time") ↔
        ∃ et, payload.end_time = some et ∧
          et ≤ payload.start_time.getD b.start_time) := by
  constructor
  · intro s hs
    refine ⟨{ st with bookings :=
        Bookings.replaceFirstBy (fun x => x.id == b.id) { b with start_time := s } st.bookings },
      ?_, ?_, hs⟩
    · simp [Bookings.update_booking, hb, Bookings.invalid_interval,
        Bookings.updated_booking, Bookings.start_patched]
    · exact Bookings.mem_replaceFirstBy_of_find? _ _ _ _ hb
  · intro payload
    constructor
    · intro hres
      by_cases hbad : Bookings.invalid_interval payload b
      · exact (Bookings.invalid_interval_iff payload b).mp hbad
      · simp [Bookings.update_booking, hb, hbad] at hres
    · intro hex
      have hbad := (Bookings.invalid_interval_iff payload b).mpr hex
      simp [Bookings.update_booking, hb, hbad]

/-- Witness for `update_booking_checks_interval_only_with_end`: a booking
over `[0, 60)`; moving its start to 100 succeeds and leaves `end <= start`,
while supplying `end_time = 0` alone is rejected with the 400. -/
theorem update_booking_checks_interval_only_with_end_witness :
    ([(⟨1, "alice", 0, 60, none, 1, "confirmed"⟩ : Bookings.BookingResponse)].find?
        (fun x => x.id == (⟨1, "alice", 0, 60, none, 1, "confirmed"⟩ : Bookings.BookingResponse).id) =
      some ⟨1, "alice", 0, 60, none, 1, "confirmed"⟩) ∧
    ((⟨1, "alice", 0, 60, none, 1, "confirmed"⟩ : Bookings.BookingResponse).end_time ≤ (100 : Int)) ∧
    (∃ st2,
      Bookings.update_booking 1 ⟨some 100, none, none⟩ ⟨[⟨1, "alice", 0, 60, none, 1, "confirmed"⟩], 2⟩ =
        (Except.ok ⟨1, "alice", 100, 60, none, 1, "confirmed"⟩, st2) ∧
      (⟨1, "alice", 100, 60, none, 1, "confirmed"⟩ : Bookings.BookingResponse) ∈ st2.bookings ∧
      (⟨1, "alice", 100, 60, none, 1, "confirmed"⟩ : Bookings.BookingResponse).end_time ≤
        (⟨1, "alice", 100, 60, none, 1, "confirmed"⟩ : Bookings.BookingResponse).start_time) ∧
    ((Bookings.update_booking 1 ⟨none, some 0, none⟩ ⟨[⟨1, "alice", 0, 60, none, 1, "confirmed"⟩], 2⟩).1 =
        Except.error (HTTPError.httpException 400 "end_time must be after start_time") ↔
      ∃ et, (⟨none, some 0, none⟩ : Bookings.BookingUpdate).end_time = some et ∧
        et ≤ (⟨none, some 0, none⟩ : Bookings.BookingUpdate).start_time.getD
          (⟨1, "alice", 0, 60, none, 1, "confirmed"⟩ : Bookings.BookingResponse).start_time) :=
  ⟨by decide, by decide,
   (update_booking_checks_interval_only_with_end
      ⟨[⟨1, "alice", 0, 60, none, 1, "confirmed"⟩], 2⟩
      ⟨1, "alice", 0, 60, none, 1, "confirmed"⟩ (by decide)).1 100 (by decide),
   (update_booking_checks_interval_only_with_end
      ⟨[⟨1, "alice", 0, 60, none, 1, "confirmed"⟩], 2⟩
      ⟨1, "alice", 0, 60, none, 1, "confirmed"⟩ (by decide)).2 ⟨none, some 0, none⟩⟩

/-- C10: review ownership is enforced, atomically on error: `create_review`
answers 403 when the payload username differs from the bearer-token
username; `update_review` and `delete_review` answer 404 when no stored
review has the id and 403 when the stored review's author differs from the
bearer-token username; in every such case the state is returned unchanged. -/
theorem review_ownership_enforced (st : Reviews.ReviewsState) :
    (∀ (room_id : Int) (payload : Reviews.ReviewCreate) (current : String) (now : Int),
      payload.username ≠ current →
      Reviews.create_review room_id payload current now st =
        (Except.error (HTTPError.httpException 403 "You can only create reviews as yourself."), st)) ∧
    (∀ (review_id : Int) (payload : Reviews.ReviewUpdate) (current : String),
      (∀ r ∈ st.reviews, r.review_id ≠ review_id) →
      Reviews.update_review review_id payload current st =
        (Except.error (HTTPError.httpException 404 "Review not found"), st)) ∧
    (∀ (review_id : Int) (payload : Reviews.ReviewUpdate) (current : String)
        (r : Reviews.ReviewResponse),
      st.reviews.find? (fun x => x.review_id == review_id) = some r →
      r.username ≠ current →
      Reviews.update_review review_id payload current st =
        (Except.error (HTTPError.httpException 403 "You can only update your own reviews."), st)) ∧
    (∀ (review_id : Int) (current : String),
      (∀ r ∈ st.reviews, r.review_id ≠ review_id) →
      Reviews.delete_review review_id current st =
        (Except.error (HTTPError.httpException 404 "Review not found"), st)) ∧
    (∀ (review_id : Int) (current : String) (r : Reviews.ReviewResponse),
      st.reviews.find? (fun x => x.review_id == review_id) = some r →
      r.username ≠ current →
      Reviews.delete_review review_id current st =
        (Except.error (HTTPError.httpException 403 "You can only delete your own reviews."), st)) := by
  refine ⟨?_, ?_, ?_, ?_, ?_⟩
  · intro room_id payload current now h
    simp [Reviews.create_review, h]
  · intro review_id payload current h
    have hf : st.reviews.find? (fun r => r.review_id == review_id) = none :=
      List.find?_eq_none.mpr (fun x hx => by simpa using h x hx)
    simp [Reviews.update_review, hf]
  · intro review_id payload current r hf h
    simp [Reviews.update_review, hf, h]
  · intro review_id current h
    have hf : st.reviews.find? (fun r => r.review_id == review_id) = none :=
      List.find?_eq_none.mpr (fun x hx => by simpa using h x hx)
    simp [Reviews.delete_review, hf]
  · intro review_id current r hf h
    simp [Reviews.delete_review, hf, h]

/-- Witness for `review_ownership_enforced` on a one-review store: each of
the five error paths at concrete inputs, with the store unchanged. -/
theorem review_ownership_enforced_witness :
    ((⟨"bob", 4, none, 1⟩ : Reviews.ReviewCreate).username ≠ "alice") ∧
    (Reviews.create_review 1 ⟨"bob", 4, none, 1⟩ "alice" 0 ⟨[⟨1, 1, "alice", 5, none, 1, 0⟩], 2⟩ =
      (Except.error (HTTPError.httpException 403 "You can only create reviews as yourself."),
       ⟨[⟨1, 1, "alice", 5, none, 1, 0⟩], 2⟩)) ∧
    (Reviews.update_review 99 ⟨some 1, none⟩ "alice" ⟨[⟨1, 1, "alice", 5, none, 1, 0⟩], 2⟩ =
      (Except.error (HTTPError.httpException 404 "Review not found"),
       ⟨[⟨1, 1, "alice", 5, none, 1, 0⟩], 2⟩)) ∧
    (Reviews.update_review 1 ⟨some 1, none⟩ "mallory" ⟨[⟨1, 1, "alice", 5, none, 1, 0⟩], 2⟩ =
      (Except.error (HTTPError.httpException 403 "You can only update your own reviews."),
       ⟨[⟨1, 1, "alice", 5, none, 1, 0⟩], 2⟩)) ∧
    (Reviews.delete_review 99 "alice" ⟨[⟨1, 1, "alice", 5, none, 1, 0⟩], 2⟩ =
      (Except.error (HTTPError.httpException 404 "Review not found"),
       ⟨[⟨1, 1, "alice", 5, none, 1, 0⟩], 2⟩)) ∧
    (Reviews.delete_review 1 "mallory" ⟨[⟨1, 1, "alice", 5, none, 1, 0⟩], 2⟩ =
      (Except.error (HTTPError.httpException 403 "You can only delete your own reviews."),
       ⟨[⟨1, 1, "alice", 5, none, 1, 0⟩], 2⟩)) :=
  ⟨by decide,
   (review_ownership_enforced ⟨[⟨1, 1, "alice", 5, none, 1, 0⟩], 2⟩).1
     1 ⟨"bob", 4, none, 1⟩ "alice" 0 (by decide),
   (review_ownership_enforced ⟨[⟨1, 1, "alice", 5, none, 1, 0⟩], 2⟩).2.1
     99 ⟨some 1, none⟩ "alice" (by decide),
   (review_ownership_enforced ⟨[⟨1, 1, "alice", 5, none, 1, 0⟩], 2⟩).2.2.1
     1 ⟨some 1, none⟩ "mallory" ⟨1, 1, "alice", 5, none, 1, 0⟩ (by decide) (by decide),
   (review_ownership_enforced ⟨[⟨1, 1, "alice", 5, none, 1, 0⟩], 2⟩).2.2.2.1
     99 "alice" (by decide),
   (review_ownership_enforced ⟨[⟨1, 1, "alice", 5, none, 1, 0⟩], 2⟩).2.2.2.2
     1 "mallory" ⟨1, 1, "alice", 5, none, 1, 0⟩ (by decide) (by decide)⟩

/-- C5: tokens are literally usernames — when a username/password pair
authenticates, `login` returns a `Token` whose `access_token` is exactly
that username, and the reviews service's `get_current_username` returns the
bearer-token string itself as the authenticated identity. -/
theorem tokens_are_usernames (hash_password : String → String)
    (db : List Users.User) (username password : String) (user : Users.User)
    (h : Users.authenticate_user hash_password db username password = some user) :
    Users.login hash_password db username password =
      Except.ok { access_token := username, token_type := "bearer", role := user.role } ∧
    (∀ token : String, token ≠ "" →
      Reviews.get_current_username token = Except.ok token) := by
  constructor
  · have huser : user.username = username := by
      cases hf : db.find? (fun u => u.username == username) with
      | none => simp [Users.authenticate_user, hf] at h
      | some u =>
        have hu : u.username = username := by simpa using List.find?_some hf
        by_cases hp : u.password ≠ hash_password password
        · simp [Users.authenticate_user, hf, hp] at h
        · simp [Users.authenticate_user, hf, hp] at h
          rw [← h]
          exact hu
    simp [Users.login, h, huser]
  · intro token ht
    simp [Reviews.get_current_username, ht]

/-- Witness for `tokens_are_usernames`: a one-user table with the identity
function standing for the password hash. -/
theorem tokens_are_usernames_witness :
    (Users.authenticate_user (fun s => s) [⟨1, "alice", "secret99", "regular"⟩] "alice" "secret99" =
      some ⟨1, "alice", "secret99", "regular"⟩) ∧
    (Users.login (fun s => s) [⟨1, "alice", "secret99", "regular"⟩] "alice" "secret99" =
      Except.ok ⟨"alice", "bearer", "regular"⟩) ∧
    (Reviews.get_current_username "alice" = Except.ok "alice") :=
  ⟨by decide,
   (tokens_are_usernames (fun s => s) [⟨1, "alice", "secret99", "regular"⟩]
      "alice" "secret99" ⟨1, "alice", "secret99", "regular"⟩ (by decide)).1,
   (tokens_are_usernames (fun s => s) [⟨1, "alice", "secret99", "regular"⟩]
      "alice" "secret99" ⟨1, "alice", "secret99", "regular"⟩ (by decide)).2
     "alice" (by decide)⟩

/-! ## The event pipeline (modelled from the spec) -/

namespace Messaging

theorem run_consumer_append_failure (pre post : List (BrokerStep α)) :
    run_consumer (pre ++ BrokerStep.failure :: post) =
      run_consumer (pre ++ [BrokerStep.failure]) := by
  induction pre with
  | nil => rfl
  | cons x xs ih =>
    cases x with
    | msg m => simp [run_consumer, List.cons_append, ih]
    | failure => rfl

theorem run_consumer_msgs (ms : List α) (post : List (BrokerStep α)) :
    run_consumer (ms.map BrokerStep.msg ++ BrokerStep.failure :: post) = ms := by
  induction ms with
  | nil => rfl
  | cons m rest ih => simp [run_consumer, List.cons_append, ih]

theorem acksOf_consume_trace (msgs : List α) : acksOf (consume_trace msgs) = msgs := by
  induction msgs with
  | nil => rfl
  | cons m rest ih =>
    have hstep : acksOf (QEvent.deliver m :: QEvent.ack m :: consume_trace rest) =
        m :: acksOf (consume_trace rest) := by
      simp [acksOf, List.filterMap_cons]
    rw [consume_trace, hstep, ih]

theorem deliversOf_consume_trace (msgs : List α) :
    deliversOf (consume_trace msgs) = msgs := by
  induction msgs with
  | nil => rfl
  | cons m rest ih =>
    have hstep : deliversOf (QEvent.deliver m :: QEvent.ack m :: consume_trace rest) =
        m :: deliversOf (consume_trace rest) := by
      simp [deliversOf, List.filterMap_cons]
    rw [consume_trace, hstep, ih]

theorem unacked_take_consume_trace (msgs : List α) (n : Nat) :
    unackedCount (List.take n (consume_trace msgs)) ≤ 1 := by
  induction msgs generalizing n with
  | nil => simp [consume_trace, unackedCount, acksOf, deliversOf]
  | cons m rest ih =>
    rcases n with _ | (_ | k)
    · simp [unackedCount, acksOf, deliversOf]
    · simp [consume_trace, unackedCount, acksOf, deliversOf, List.filterMap_cons]
    · have hk := ih k
      simp only [consume_trace, List.take_succ_cons, unackedCount, acksOf, deliversOf,
        List.filterMap_cons, List.length_cons] at hk ⊢
      omega

end Messaging

/-- C2: publish never propagates a failure to its caller — for every broker
environment the booking-creation response and the stored state equal those
of the bare `create_booking`, and when the publish attempt fails with a
connection, serialization, or broker error, zero messages are enqueued and
the failure is absorbed (modelled from the spec; the publisher module is
absent from `src/`). -/
theorem publish_failures_never_propagate
    (env : Messaging.BrokerEnv) (p : Bookings.BookingCreate) (st : Bookings.BookingsState) :
    ((Messaging.create_booking_and_publish env p st).1 = (Bookings.create_booking p st).1 ∧
     (Messaging.create_booking_and_publish env p st).2.1 = (Bookings.create_booking p st).2) ∧
    (∀ r err, (Bookings.create_booking p st).1 = Except.ok r →
      Messaging.publish_attempt env r = Except.error err →
      (Messaging.create_booking_and_publish env p st).2.2 = []) := by
  cases hcr : Bookings.create_booking p st with
  | mk res st2 =>
    cases res with
    | error e =>
      refine ⟨⟨?_, ?_⟩, ?_⟩
      · simp [Messaging.create_booking_and_publish, hcr]
      · simp [Messaging.create_booking_and_publish, hcr]
      · intro r err hr _
        simp at hr
    | ok r0 =>
      cases hp : Messaging.publish_attempt env r0 with
      | ok u =>
        refine ⟨⟨?_, ?_⟩, ?_⟩
        · simp [Messaging.create_booking_and_publish, hcr, hp]
        · simp [Messaging.create_booking_and_publish, hcr, hp]
        · intro r err hr herr
          have hrr : r0 = r := by simpa using hr
          rw [← hrr, hp] at herr
          simp at herr
      | error pe =>
        refine ⟨⟨?_, ?_⟩, ?_⟩
        · simp [Messaging.create_booking_and_publish, hcr, hp]
        · simp [Messaging.create_booking_and_publish, hcr, hp]
        · intro r err _ _
          simp [Messaging.create_booking_and_publish, hcr, hp]

/-- Witness for `publish_failures_never_propagate`: a valid creation with
the broker connection down — the publish attempt fails, nothing is
enqueued. -/
theorem publish_failures_never_propagate_witness :
    ((Bookings.create_booking ⟨1, "alice", 0, 60, none⟩ Bookings.initialState).1 =
      Except.ok ⟨1, "alice", 0, 60, none, 1, "confirmed"⟩) ∧
    (Messaging.publish_attempt ⟨false, true, true⟩
        (⟨1, "alice", 0, 60, none, 1, "confirmed"⟩ : Bookings.BookingResponse) =
      Except.error Messaging.PublishError.connectionError) ∧
    ((Messaging.create_booking_and_publish ⟨false, true, true⟩ ⟨1, "alice", 0, 60, none⟩
        Bookings.initialState).2.2 = []) :=
  ⟨by decide, by decide,
   (publish_failures_never_propagate ⟨false, true, true⟩ ⟨1, "alice", 0, 60, none⟩
      Bookings.initialState).2
     ⟨1, "alice", 0, 60, none, 1, "confirmed"⟩ Messaging.PublishError.connectionError
     (by decide) (by decide)⟩

/-- C3: any error during connect or consume terminates the consumer loop
permanently — the messages processed do not depend on anything the broker
would feed the task after the first error (so no message after it is ever
processed, for the lifetime of the task), while the messages before the
error are processed and the error itself is absorbed (modelled from the
spec; the consumer module is absent from `src/`). -/
theorem consumer_terminates_permanently_on_error {α : Type}
    (pre post post2 : List (Messaging.BrokerStep α)) (ms : List α) :
    Messaging.run_consumer (pre ++ Messaging.BrokerStep.failure :: post) =
      Messaging.run_consumer (pre ++ [Messaging.BrokerStep.failure]) ∧
    Messaging.run_consumer (pre ++ Messaging.BrokerStep.failure :: post) =
      Messaging.run_consumer (pre ++ Messaging.BrokerStep.failure :: post2) ∧
    Messaging.run_consumer (List.map Messaging.BrokerStep.msg ms ++
        Messaging.BrokerStep.failure :: post) = ms :=
  ⟨Messaging.run_consumer_append_failure pre post,
   (Messaging.run_consumer_append_failure pre post).trans
     (Messaging.run_consumer_append_failure pre post2).symm,
   Messaging.run_consumer_msgs ms post⟩

/-- C7: a prefetch-1 consumer drained against a queue of N pending messages
acknowledges each exactly once and in enqueue order (the acknowledgment
sequence equals the queue contents), delivers them in enqueue order, and at
every prefix of the trace at most one delivered message is unacknowledged
(modelled from the spec; the consumer module is absent from `src/`). -/
theorem prefetch_one_ack_each_once_in_order {α : Type} (msgs : List α) :
    Messaging.acksOf (Messaging.consume_trace msgs) = msgs ∧
    Messaging.deliversOf (Messaging.consume_trace msgs) = msgs ∧
    ∀ n, Messaging.unackedCount (List.take n (Messaging.consume_trace msgs)) ≤ 1 :=
  ⟨Messaging.acksOf_consume_trace msgs, Messaging.deliversOf_consume_trace msgs,
   fun n => Messaging.unacked_take_consume_trace msgs n⟩

/-! ## ISO-8601 round trip and the event payload (modelled from the spec) -/

namespace Messaging

theorem toNat_ofNat_digit (k : Nat) (h : k < 10) : (Char.ofNat (48 + k)).toNat = 48 + k := by
  interval_cases k <;> decide

theorem toNat_digitChar (n : Nat) : (digitChar n).toNat = 48 + n % 10 :=
  toNat_ofNat_digit (n % 10) (Nat.mod_lt n (by omega))

theorem digitVal_digitChar (n : Nat) : digitVal (digitChar n) = some (n % 10) := by
  unfold digitVal
  rw [toNat_digitChar]
  rw [if_pos (by omega)]
  congr 1
  omega

theorem parse2_digits (n : Nat) (h : n < 100) :
    parse2 (digitChar (n / 10)) (digitChar n) = some n := by
  unfold parse2
  rw [digitVal_digitChar, digitVal_digitChar]
  show some (10 * (n / 10 % 10) + n % 10) = some n
  congr 1
  omega

theorem parse4_digits (n : Nat) (h : n < 10000) :
    parse4 (digitChar (n / 1000)) (digitChar (n / 100)) (digitChar (n / 10)) (digitChar n) =
      some n := by
  unfold parse4
  rw [digitVal_digitChar, digitVal_digitChar, digitVal_digitChar, digitVal_digitChar]
  show some (1000 * (n / 1000 % 10) + 100 * (n / 100 % 10) + 10 * (n / 10 % 10) + n % 10) =
    some n
  congr 1
  omega

theorem parseFields_digits (year month day hour minute second : Nat)
    (hy : year < 10000) (hm : month < 100) (hd : day < 100) (hh : hour < 100)
    (hn : minute < 100) (hs : second < 100) :
    parseFields (digitChar (year / 1000)) (digitChar (year / 100)) (digitChar (year / 10))
      (digitChar year) (digitChar (month / 10)) (digitChar month)
      (digitChar (day / 10)) (digitChar day) (digitChar (hour / 10)) (digitChar hour)
      (digitChar (minute / 10)) (digitChar minute) (digitChar (second / 10))
      (digitChar second) =
      checkRanges year month day hour minute second := by
  unfold parseFields
  rw [parse4_digits year hy, parse2_digits month hm, parse2_digits day hd,
      parse2_digits hour hh, parse2_digits minute hn, parse2_digits second hs]

theorem isoParse_isoFormat (t : DateTime) (h : t.wf) :
    isoParse (isoFormat t) = some t := by
  obtain ⟨hy, hm1, hm2, hd1, hd2, hh, hn, hs⟩ := h
  show isoParseChars (isoFormatChars t) = some t
  have hlist : isoFormatChars t =
      [digitChar (t.year / 1000), digitChar (t.year / 100), digitChar (t.year / 10),
       digitChar t.year, '-', digitChar (t.month / 10), digitChar t.month, '-',
       digitChar (t.day / 10), digitChar t.day, 'T', digitChar (t.hour / 10),
       digitChar t.hour, ':', digitChar (t.minute / 10), digitChar t.minute, ':',
       digitChar (t.second / 10), digitChar t.second] := rfl
  rw [hlist]
  show (if ('-' = '-' ∧ '-' = '-' ∧ 'T' = 'T' ∧ ':' = ':' ∧ ':' = ':') then
      parseFields (digitChar (t.year / 1000)) (digitChar (t.year / 100))
        (digitChar (t.year / 10)) (digitChar t.year) (digitChar (t.month / 10))
        (digitChar t.month) (digitChar (t.day / 10)) (digitChar t.day)
        (digitChar (t.hour / 10)) (digitChar t.hour) (digitChar (t.minute / 10))
        (digitChar t.minute) (digitChar (t.second / 10)) (digitChar t.second)
    else none) = some t
  rw [if_pos ⟨rfl, rfl, rfl, rfl, rfl⟩]
  rw [parseFields_digits t.year t.month t.day t.hour t.minute t.second
    (by omega) (by omega) (by omega) (by omega) (by omega) (by omega)]
  unfold checkRanges
  rw [if_pos ⟨⟨hm1, hm2⟩, ⟨hd1, hd2⟩, hh, hn, hs⟩]

end Messaging

/-- C6: serializing a booking to the event payload and deserializing it on
the consumer side reproduces every field value (id, room_id, username,
start_time, end_time, purpose, status), the timestamps being recovered by
ISO-8601 parsing (modelled from the spec; the publisher/consumer modules
are absent from `src/`). -/
theorem event_payload_round_trip (b : Messaging.EventBooking)
    (h1 : b.start_time.wf) (h2 : b.end_time.wf) :
    Messaging.deserialize_event (Messaging.serialize_event b) = some b := by
  obtain ⟨bid, brid, bu, bst, bet, bpu, bs⟩ := b
  have hst : Messaging.isoParse (Messaging.isoFormat bst) = some bst :=
    Messaging.isoParse_isoFormat bst h1
  have het : Messaging.isoParse (Messaging.isoFormat bet) = some bet :=
    Messaging.isoParse_isoFormat bet h2
  cases bpu with
  | none =>
    simp [Messaging.serialize_event, Messaging.deserialize_event, Messaging.lookupField,
      hst, het]
  | some pu =>
    simp [Messaging.serialize_event, Messaging.deserialize_event, Messaging.lookupField,
      hst, het]

/-- Witness for `event_payload_round_trip`: the spec's end-to-end example
booking (alice, room 1, 2025-01-01 10:00 to 11:00, "sync"). -/
theorem event_payload_round_trip_witness :
    (⟨2025, 1, 1, 10, 0, 0⟩ : Messaging.DateTime).wf ∧
    (⟨2025, 1, 1, 11, 0, 0⟩ : Messaging.DateTime).wf ∧
    Messaging.deserialize_event (Messaging.serialize_event
        ⟨1, 1, "alice", ⟨2025, 1, 1, 10, 0, 0⟩, ⟨2025, 1, 1, 11, 0, 0⟩,
         some "sync", "confirmed"⟩) =
      some ⟨1, 1, "alice", ⟨2025, 1, 1, 10, 0, 0⟩, ⟨2025, 1, 1, 11, 0, 0⟩,
        some "sync", "confirmed"⟩ :=
  ⟨by decide, by decide,
   event_payload_round_trip
     ⟨1, 1, "alice", ⟨2025, 1, 1, 10, 0, 0⟩, ⟨2025, 1, 1, 11, 0, 0⟩, some "sync", "confirmed"⟩
     (by decide) (by decide)⟩
